import Mathlib

/-!
Shallow embedding of the two file-backed stores of the repository
(`src/auth_store.py`, `src/local_store.py`) and proofs about the spec's
claims.  Machine integers are modelled as `Nat`/`Int`; the file system is
modelled as explicit state; Python exceptions become `Except` values.
The PBKDF2 hash is abstracted as a parameter `H : String → String → String`
(pin, salt ↦ hex digest): it is a deterministic function of its inputs, which
is the only property of PBKDF2 the store's control flow relies on; claims
about "wrong PIN" behaviour take the no-collision hypothesis explicitly.
-/

deriving instance DecidableEq for Except

namespace ProjectMain

/-- `re.sub(r"\D", "", s)`: keep the decimal digits of `s`.  The preceding
`.strip()` in the source removes only whitespace, which the digit filter
removes as well, so it does not change the result. -/
def stripNonDigits (s : String) : String := ⟨s.data.filter Char.isDigit⟩

/-- `MOBILE_RE.fullmatch(x)` for `MOBILE_RE = ^[0-9]{10}$`. -/
def mobileRe (x : String) : Bool := x.length = 10 && x.data.all Char.isDigit

/-- `re.fullmatch(r"[0-9]{4,6}", pin)`: the PIN format check of `_hash_pin`. -/
def pinValid (pin : String) : Bool :=
  4 ≤ pin.length && pin.length ≤ 6 && pin.data.all Char.isDigit

/-- The error taxonomy of §7 of the spec.  Each constructor corresponds to one
`raise` site of `auth_store.py` (all of them raise `ValueError` with distinct
messages; `parseError` is the `json.JSONDecodeError` that escapes from
`verify_pin`, which opens the record with no `try`). -/
inductive AuthError where
  | validation
  | notFound
  | corrupted
  | throttled
  | uninitialized
  | invalidCredentials
  | parseError
deriving DecidableEq, Repr

/-- `_normalize_mobile` of `auth_store.py`: strip non-digits, then require a
full match of `^[0-9]{10}$`, raising `ValueError` otherwise. -/
def normalizeMobile (s : String) : Except AuthError String :=
  let x := stripNonDigits s
  if mobileRe x then .ok x else .error .validation

/-- A parsed `auth.json` credential record.  JSON keys that `auth_store.py`
may leave absent are `Option`s (`u.get(k, default)` reads become `getD`);
`pin_salt`/`pin_hash` are plain strings because the code reads them with
default `""` and treats the empty string exactly like an absent key. -/
structure AuthRec where
  mobile : String
  pin_salt : String
  pin_hash : String
  created_at : Option Nat
  updated_at : Option Nat
  failed_attempts : Option Nat
  last_failed_at : Option Nat
deriving DecidableEq, Repr

/-- The record a fresh `u = {}` denotes (every read falls back to its
default). -/
def emptyRec : AuthRec :=
  { mobile := "", pin_salt := "", pin_hash := ""
    created_at := none, updated_at := none
    failed_attempts := none, last_failed_at := none }

/-- The persisted session record (`session.json`). -/
structure Session where
  mobile : String
  login_at : Nat
deriving DecidableEq, Repr

/-- The slice of the file system `AuthStore` touches.
For a mobile `m`, `users m = none` means `users/<m>/auth.json` does not
exist, `some none` means the file exists but `json.load` raises, and
`some (some r)` means it parses to the record `r` (a file parsing to a falsy
value, `{}` or `null`, is `some (some emptyRec)`: the code replaces it by
`{}`).  `session` is the same three-way view of `session.json`. -/
structure AuthFS where
  users : String → Option (Option AuthRec)
  session : Option (Option Session)

/-- Overwrite `users/<mob>/auth.json`. -/
def AuthFS.setUser (fs : AuthFS) (mob : String) (r : Option AuthRec) : AuthFS :=
  { fs with users := fun m => if m = mob then some r else fs.users m }

/-- Overwrite `session.json`. -/
def AuthFS.setSession (fs : AuthFS) (s : Option (Option Session)) : AuthFS :=
  { fs with session := s }

/-- `AuthStore.register(mobile, pin)`.  `freshSalt` stands for the
`secrets.token_hex(16)` value drawn inside `_hash_pin`; `now` for `_now()`.
Returns the final file system and the outcome (`ok` carries the returned
`{"mobile": mob}`). -/
def register (H : String → String → String) (freshSalt : String) (fs : AuthFS)
    (now : Nat) (mobile pin : String) : AuthFS × Except AuthError String :=
  match normalizeMobile mobile with
  | .error e => (fs, .error e)
  | .ok mob =>
    let u0 : AuthRec :=
      match fs.users mob with
      | none => { emptyRec with mobile := mob, created_at := some now }
      | some none => emptyRec
      | some (some r) => r
    if pinValid pin then
      let u : AuthRec :=
        { u0 with
          mobile := mob
          pin_salt := freshSalt
          pin_hash := H pin freshSalt
          updated_at := some now
          failed_attempts := none
          last_failed_at := none }
      (fs.setUser mob (some u), .ok mob)
    else (fs, .error .validation)

/-- `AuthStore.login(mobile, pin)`.  The order of the checks is the order of
the source: existence, parse, throttle (`fails >= 5 and now - last < 300`),
salt/hash presence, PIN format (inside `_hash_pin`), hash comparison. -/
def login (H : String → String → String) (fs : AuthFS) (now : Nat)
    (mobile pin : String) : AuthFS × Except AuthError String :=
  match normalizeMobile mobile with
  | .error e => (fs, .error e)
  | .ok mob =>
    match fs.users mob with
    | none => (fs, .error .notFound)
    | some none => (fs, .error .corrupted)
    | some (some u) =>
      let fails := u.failed_attempts.getD 0
      let last := u.last_failed_at.getD 0
      if 5 ≤ fails ∧ (now : Int) - (last : Int) < 300 then
        (fs, .error .throttled)
      else if u.pin_salt = "" ∨ u.pin_hash = "" then
        (fs, .error .uninitialized)
      else if ¬ pinValid pin then (fs, .error .validation)
      else if H pin u.pin_salt ≠ u.pin_hash then
        let u' : AuthRec :=
          { u with
            failed_attempts := some (fails + 1)
            last_failed_at := some now }
        (fs.setUser mob (some u'), .error .invalidCredentials)
      else
        let u' : AuthRec :=
          { u with
            failed_attempts := none
            last_failed_at := none
            updated_at := some now }
        ((fs.setUser mob (some u')).setSession (some (some ⟨mob, now⟩)),
         .ok mob)

/-- `AuthStore.current_user()`: `None` on a missing file, an unparseable file,
or a session mobile that fails normalization — every failure path is caught. -/
def current_user (fs : AuthFS) : Option String :=
  match fs.session with
  | none => none
  | some none => none
  | some (some sess) =>
    match normalizeMobile sess.mobile with
    | .error _ => none
    | .ok mob => some mob

/-- `AuthStore.user_exists(mobile)`: the whole body is wrapped in
`try/except`, so a normalization failure yields `False`. -/
def user_exists (fs : AuthFS) (mobile : String) : Bool :=
  match normalizeMobile mobile with
  | .error _ => false
  | .ok mob => (fs.users mob).isSome

/-- `AuthStore.verify_pin(mobile, pin)`.  Unlike `user_exists`, the body has
no `try/except`: normalization errors, parse errors and PIN-format errors
escape to the caller. -/
def verify_pin (H : String → String → String) (fs : AuthFS)
    (mobile pin : String) : Except AuthError Bool :=
  match normalizeMobile mobile with
  | .error e => .error e
  | .ok mob =>
    match fs.users mob with
    | none => .ok false
    | some none => .error .parseError
    | some (some u) =>
      if u.pin_salt = "" ∨ u.pin_hash = "" then .ok false
      else if ¬ pinValid pin then .error .validation
      else .ok (H pin u.pin_salt = u.pin_hash)

/-- `AuthStore.change_pin(mobile, old_pin, new_pin)`.  `freshSalt` is the new
`secrets.token_hex(16)` salt. -/
def change_pin (H : String → String → String) (freshSalt : String)
    (fs : AuthFS) (now : Nat) (mobile oldPin newPin : String) :
    AuthFS × Except AuthError Unit :=
  match verify_pin H fs mobile oldPin with
  | .error e => (fs, .error e)
  | .ok false => (fs, .error .invalidCredentials)
  | .ok true =>
    match normalizeMobile mobile with
    | .error e => (fs, .error e)
    | .ok mob =>
      match fs.users mob with
      | some (some u) =>
        if pinValid newPin then
          let u' : AuthRec :=
            { u with
              pin_salt := freshSalt
              pin_hash := H newPin freshSalt
              updated_at := some now }
          (fs.setUser mob (some u'), .ok ())
        else (fs, .error .validation)
      | some none => (fs, .error .parseError)
      | none => (fs, .error .notFound)

/-- A legacy `auth/users.json` entry (`users_by_mobile` value): every field is
read with `rec.get(k, default)`. -/
structure LegacyRec where
  pin_salt : Option String
  pin_hash : Option String
  created_at : Option Nat
  updated_at : Option Nat
deriving DecidableEq, Repr

/-- The payload the `AuthStore.__init__` migration writes for one legacy
entry (lines 75–82 of `auth_store.py`). -/
def migratePayload (now : Nat) (mobn : String) (rec : LegacyRec) : AuthRec :=
  { mobile := mobn
    pin_salt := rec.pin_salt.getD ""
    pin_hash := rec.pin_hash.getD ""
    created_at := some (rec.created_at.getD now)
    updated_at := some (rec.updated_at.getD now)
    failed_attempts := none
    last_failed_at := none }

/-- The `AuthStore.__init__` legacy migration: for each `users_by_mobile`
entry whose key, stripped of non-digits, is a valid 10-digit mobile, write the
payload derived from the entry via `_atomic_write_json`; other keys are
skipped. -/
def migrateLegacy (now : Nat) (entries : List (String × LegacyRec))
    (fs : AuthFS) : AuthFS :=
  entries.foldl
    (fun acc e =>
      let mobn := stripNonDigits e.1
      if mobileRe mobn then acc.setUser mobn (some (migratePayload now mobn e.2))
      else acc)
    fs

/-! ## LocalStore (`src/local_store.py`) -/

/-- `LocalStore._norm_mobile`: strip non-digits, require length 10
(`ValueError` otherwise, modelled as `none`). -/
def normMobileLocal (s : String) : Option String :=
  let m := stripNonDigits s
  if m.length = 10 then some m else none

/-- A parsed `profile.json`: a string-keyed JSON object in insertion order
(Python dicts preserve insertion order, and `dict.setdefault` appends new
keys at the end). -/
def Profile := List (String × String)

/-- `d.get(k)` on an ordered JSON object. -/
def lookupKV (l : List (String × String)) (k : String) : Option String :=
  (l.find? (fun p => p.1 = k)).map (fun p => p.2)

/-- `d.setdefault(k, v)`: insert `(k, v)` at the end iff `k` is absent. -/
def setdefaultKV (l : List (String × String)) (k v : String) :
    List (String × String) :=
  if (lookupKV l k).isSome then l else l ++ [(k, v)]

/-- The six `setdefault` calls of `LocalStore.load_profile`, in source
order. -/
def applyProfileDefaults (mob : String) (d : List (String × String)) :
    List (String × String) :=
  setdefaultKV (setdefaultKV (setdefaultKV (setdefaultKV (setdefaultKV
    (setdefaultKV d "mobile" mob) "name" "") "email" "") "state" "")
    "district" "") "address" ""

/-- The slice of the file system `LocalStore` touches: for each mobile the
profile file (absent / unparseable / parsed) and the list of basenames in
`users/<mobile>/uploads/`. -/
structure LocalFS where
  profiles : String → Option (Option (List (String × String)))
  uploads : String → List String

def LocalFS.setProfile (fs : LocalFS) (mob : String)
    (d : Option (List (String × String))) : LocalFS :=
  { fs with profiles := fun m => if m = mob then some d else fs.profiles m }

/-- `LocalStore.load_profile(mobile)`: read (absent or corrupt → `{}`),
apply the defaults, write the result back ("ensure file exists"), return
it. -/
def load_profile (fs : LocalFS) (mobile : String) :
    LocalFS × Except Unit (List (String × String)) :=
  match normMobileLocal mobile with
  | none => (fs, .error ())
  | some mob =>
    let data0 : List (String × String) :=
      match fs.profiles mob with
      | none => []
      | some none => []
      | some (some d) => d
    let data := applyProfileDefaults mob data0
    (fs.setProfile mob (some data), .ok data)

/-- `LocalStore.save_profile(mobile, data)`: full overwrite of
`profile.json` (via a plain `open(p, "w")` write, see the event model
below). -/
def save_profile (fs : LocalFS) (mobile : String)
    (data : List (String × String)) : LocalFS × Except Unit Unit :=
  match normMobileLocal mobile with
  | none => (fs, .error ())
  | some mob => (fs.setProfile mob (some data), .ok ())

/-- Decimal digit characters of a natural number, most significant first
(fuel-structured so the kernel can evaluate it; `fuel ≥ n` suffices). -/
def natDigits (fuel n : Nat) : List Char :=
  match fuel with
  | 0 => []
  | fuel' + 1 =>
    if n < 10 then [Char.ofNat (48 + n)]
    else natDigits fuel' (n / 10) ++ [Char.ofNat (48 + n % 10)]

/-- Decimal rendering of an `Int`, as Python's `f"{digit}"` produces it. -/
def intRepr (i : Int) : String :=
  match i with
  | .ofNat n => ⟨natDigits n n⟩
  | .negSucc n => ⟨'-' :: natDigits (n + 1) (n + 1)⟩

/-- Parse a nonempty all-digit character list as a natural number. -/
def parseDigits (l : List Char) : Option Nat :=
  if l ≠ [] ∧ l.all Char.isDigit then
    some (l.foldl (fun acc c => acc * 10 + (c.toNat - 48)) 0)
  else none

/-- Python's `int(s)` on the strings that occur as upload sequence parts:
an optional sign followed by digits.  (Real `int` also tolerates surrounding
whitespace and PEP-515 underscores; no file name produced or scanned by the
store contains those, and on every other input both raise/return `none`.) -/
def pyInt (l : List Char) : Option Int :=
  match l with
  | '-' :: rest => (parseDigits rest).map (fun n => -(n : Int))
  | '+' :: rest => (parseDigits rest).map (fun n => (n : Int))
  | _ => (parseDigits l).map (fun n => (n : Int))

/-- `base.split("_", 2)[2]`: the characters after the second `'_'`, or
`none` (an `IndexError`, caught by the scan loop) when `base` has fewer than
two underscores. -/
def afterTwoUnderscores (l : List Char) : Option (List Char) :=
  match l.dropWhile (fun c => c ≠ '_') with
  | [] => none
  | _ :: rest1 =>
    match rest1.dropWhile (fun c => c ≠ '_') with
    | [] => none
    | _ :: rest2 => some rest2

/-- `os.path.splitext(part)[0]`: everything before the last `'.'`, or the
whole string when there is none.  (Python additionally keeps leading dots
attached to the root; for the store's use — feeding the root to `int` — the
two behaviours accept and reject exactly the same strings, since a root that
differs starts with `'.'` and fails `int` either way.) -/
def splitextRoot (l : List Char) : List Char :=
  match l.reverse.dropWhile (fun c => c ≠ '.') with
  | [] => l
  | _ :: restRev => restRev.reverse

/-- Does `l` start with `p`? (`glob` with pattern `p*` / `str.startswith`). -/
def listStartsWith (p l : List Char) : Bool :=
  match p, l with
  | [], _ => true
  | _ :: _, [] => false
  | a :: p', b :: l' => a = b && listStartsWith p' l'

/-- The scan loop of `LocalStore._next_digit_for_day`: the parsed sequence
numbers of the files in the uploads directory matching
`{mob}_{date_key}_*`. -/
def digitsForDay (files : List String) (mob dateKey : String) : List Int :=
  let pfx := mob ++ "_" ++ dateKey ++ "_"
  files.filterMap (fun base =>
    if listStartsWith pfx.data base.data then
      (afterTwoUnderscores base.data).bind (fun part =>
        pyInt (splitextRoot part))
    else none)

/-- `max(digits)` for a nonempty list (Python `max`). -/
def listMaxInt (x : Int) (l : List Int) : Int :=
  l.foldl (fun a b => max a b) x

/-- `LocalStore._next_digit_for_day`: `max(digits) + 1` if any file for that
mobile+day parses, else `1`. -/
def next_digit_for_day (files : List String) (mob dateKey : String) : Int :=
  match digitsForDay files mob dateKey with
  | [] => 1
  | d :: ds => listMaxInt d ds + 1

/-- The destination basename `f"{mob}_{date_key}_{digit}{ext}"` chosen by
`LocalStore.add_upload`. -/
def uploadDestName (files : List String) (mob dateKey ext : String) : String :=
  mob ++ "_" ++ dateKey ++ "_" ++ intRepr (next_digit_for_day files mob dateKey) ++ ext

/-- `LocalStore.add_upload(owner_mobile, src, date_key)`.  `srcExists` and
`ext` stand for `os.path.isfile(src)` and `os.path.splitext(src)[1].lower()`;
the copy is modelled as appending the destination basename to the user's
uploads listing.  Returns the chosen basename. -/
def add_upload (fs : LocalFS) (ownerMobile : String) (srcExists : Bool)
    (ext dateKey : String) : LocalFS × Except Unit String :=
  match normMobileLocal ownerMobile with
  | none => (fs, .error ())
  | some mob =>
    if srcExists then
      let name := uploadDestName (fs.uploads mob) mob dateKey ext
      ({ fs with
         uploads := fun m => if m = mob then fs.uploads mob ++ [name] else fs.uploads m },
       .ok name)
    else (fs, .error ())

/-- Modelled from the spec's words for claim C4 only: "the smallest positive
integer not already used for that mobile+date combination".  Searches upward
from 1; the fuel bound `used.length + 1` is enough, as some value in
`1..used.length+1` is unused. -/
def smallestUnusedFrom (used : List Int) : Nat → Int → Int
  | 0, k => k
  | fuel + 1, k => if k ∈ used then smallestUnusedFrom used fuel (k + 1) else k

/-- Modelled from the spec's words for claim C4: the smallest positive
integer not in `used`. -/
def smallestUnusedPos (used : List Int) : Int :=
  smallestUnusedFrom used (used.length + 1) 1

/-! ## The write primitives (`_atomic_write_json` vs a plain `open(p, "w")`)

A tiny trace semantics for the file-writing primitives, to state claim C2.
A `TextFS` maps paths to file contents; an `FsEvent` is one observable
file-system mutation; a run of a write primitive is its list of events, and
a crash at any point leaves the state reached after a prefix of them. -/

def TextFS := String → Option String

inductive FsEvent where
  /-- `tempfile.mkstemp`: create an empty file at a fresh path. -/
  | create (p : String)
  /-- A buffered write appended to `p` (`json.dump` / `f.write`). -/
  | writeChunk (p : String) (s : String)
  /-- `os.replace(src, dst)`: atomically move `src` over `dst`. -/
  | replace (src dst : String)
  /-- `open(p, "w")`: truncate `p` to empty on open. -/
  | truncateOpen (p : String)
deriving DecidableEq, Repr

def applyEvent (fs : TextFS) : FsEvent → TextFS
  | .create p => fun q => if q = p then some "" else fs q
  | .writeChunk p s => fun q =>
      if q = p then some ((fs p).getD "" ++ s) else fs q
  | .replace src dst => fun q =>
      if q = src then none else if q = dst then fs src else fs q
  | .truncateOpen p => fun q => if q = p then some "" else fs q

/-- The contents of path `p` after each prefix of `evs` (initial state
included): everything a reader racing with the writer, or inspecting the
disk after a crash, can observe at `p`. -/
def observables (fs : TextFS) (evs : List FsEvent) (p : String) :
    List (Option String) :=
  match evs with
  | [] => [fs p]
  | e :: rest => fs p :: observables (applyEvent fs e) rest p

/-- The event trace of `_atomic_write_json(path, data)` (auth_store.py lines
9–24): write the serialized document to a fresh temp file in the same
directory, then `os.replace` it over the destination. -/
def atomicWriteTrace (tmp dst content : String) : List FsEvent :=
  [.create tmp, .writeChunk tmp content, .replace tmp dst]

/-- The event trace of a plain `open(p, "w"); json.dump(data, f)` as used by
`LocalStore.save_profile` (and `load_profile`'s ensure-exists write): the
destination itself is truncated on open, then written. -/
def plainWriteTrace (dst content : String) : List FsEvent :=
  [.truncateOpen dst, .writeChunk dst content]

/-- The write primitive `LocalStore.save_profile` uses for `profile.json`
(source lines 80–85: `open(p, "w")` + `json.dump`, not
`_atomic_write_json`). -/
def saveProfileWriteTrace (dst content : String) : List FsEvent :=
  plainWriteTrace dst content

/-! ## Concrete fixtures used by witnesses -/

/-- A concrete stand-in for the PBKDF2 digest in witnesses: deterministic in
(pin, salt), nonempty, and collision-free on distinct PINs for a fixed
salt. -/
def hashFix : String → String → String := fun p s => s ++ ":" ++ p

/-- A concrete registered credential record (PIN `"1234"`, salt
`"salt1"`). -/
def recFix : AuthRec :=
  { mobile := "9876543210", pin_salt := "salt1", pin_hash := "salt1:1234"
    created_at := some 1, updated_at := some 1
    failed_attempts := none, last_failed_at := none }

/-- A store holding exactly the user `recFix` and no session. -/
def fsFix : AuthFS :=
  { users := fun m => if m = "9876543210" then some (some recFix) else none
    session := none }

/-! ## Helper lemmas -/

theorem setUser_users_self (fs : AuthFS) (mob : String) (r : Option AuthRec) :
    (fs.setUser mob r).users mob = some r := by
  simp [AuthFS.setUser]

theorem setUser_users_ne (fs : AuthFS) (mob m : String) (r : Option AuthRec)
    (h : m ≠ mob) : (fs.setUser mob r).users m = fs.users m := by
  simp [AuthFS.setUser, h]

theorem stripNonDigits_all_digits (s : String) :
    (stripNonDigits s).data.all Char.isDigit = true := by
  simp only [stripNonDigits, List.all_eq_true]
  intro c hc
  exact (List.mem_filter.mp hc).2

theorem stripNonDigits_of_digits (m : String)
    (h : m.data.all Char.isDigit = true) : stripNonDigits m = m := by
  have hf : m.data.filter Char.isDigit = m.data :=
    List.filter_eq_self.mpr (by simpa [List.all_eq_true] using h)
  exact congrArg String.mk hf

theorem normalizeMobile_eq_ok (s : String)
    (h : (stripNonDigits s).length = 10) :
    normalizeMobile s = .ok (stripNonDigits s) := by
  unfold normalizeMobile mobileRe
  simp [h, stripNonDigits_all_digits]

theorem normalizeMobile_eq_error (s : String)
    (h : (stripNonDigits s).length ≠ 10) :
    normalizeMobile s = .error .validation := by
  unfold normalizeMobile mobileRe
  simp [h]

theorem normalizeMobile_of_digits (m : String) (h10 : m.length = 10)
    (hd : m.data.all Char.isDigit = true) : normalizeMobile m = .ok m := by
  have hs := stripNonDigits_of_digits m hd
  have := normalizeMobile_eq_ok m (by rw [hs]; exact h10)
  rwa [hs] at this

theorem normMobileLocal_eq_some (s : String)
    (h : (stripNonDigits s).length = 10) :
    normMobileLocal s = some (stripNonDigits s) := by
  simp [normMobileLocal, h]

theorem normMobileLocal_eq_none (s : String)
    (h : (stripNonDigits s).length ≠ 10) : normMobileLocal s = none := by
  simp [normMobileLocal, h]

/-! ## C5 — mobile normalization -/

/-- C5, counterexample: the claim says normalizing `"+91 98765-43210"` yields
`"9876543210"`; in the code, stripping non-digits keeps the country code, the
result has 12 digits, and normalization raises `ValidationError` instead. -/
theorem c5_counterexample :
    stripNonDigits "+91 98765-43210" = "919876543210" ∧
    normalizeMobile "+91 98765-43210" = .error .validation ∧
    normalizeMobile "+91 98765-43210" ≠ .ok "9876543210" := by
  refine ⟨by decide, by decide, by decide⟩

/-- C5, amended: normalization (in both stores) strips all non-digit
characters and then requires exactly 10 digits; `"+91 98765-43210"` strips to
12 digits and fails with `ValidationError`, `"98765-43210"` yields
`"9876543210"`, and `"12345"` fails with `ValidationError`. -/
theorem c5_normalization :
    (∀ s : String,
      ((stripNonDigits s).length = 10 →
        normalizeMobile s = .ok (stripNonDigits s) ∧
        normMobileLocal s = some (stripNonDigits s)) ∧
      ((stripNonDigits s).length ≠ 10 →
        normalizeMobile s = .error .validation ∧
        normMobileLocal s = none)) ∧
    normalizeMobile "+91 98765-43210" = .error .validation ∧
    normalizeMobile "98765-43210" = .ok "9876543210" ∧
    normalizeMobile "12345" = .error .validation ∧
    normMobileLocal "12345" = none := by
  refine ⟨fun s => ⟨fun h => ⟨normalizeMobile_eq_ok s h, normMobileLocal_eq_some s h⟩,
    fun h => ⟨normalizeMobile_eq_error s h, normMobileLocal_eq_none s h⟩⟩,
    by decide, by decide, by decide, by decide⟩

/-- C5, witness: the general part of `c5_normalization` applied at
`"98765-43210"`. -/
theorem c5_normalization_witness :
    stripNonDigits "98765-43210" = "9876543210" ∧
    normalizeMobile "98765-43210" = .ok (stripNonDigits "98765-43210") := by
  refine ⟨by decide, ?_⟩
  exact ((c5_normalization.1 "98765-43210").1 (by decide)).1

/-! ## C2 — atomic writer vs `save_profile`'s plain write -/

/-- C2, counterexample: `LocalStore.save_profile` persists `profile.json`
with a plain truncating write, not through `_atomic_write_json`; a reader (or
a crash) between the truncating `open` and the `json.dump` observes an empty
file — neither the complete prior content nor the complete new content. -/
theorem c2_counterexample :
    (some "" ∈ observables
      (fun p => if p = "users/9876543210/profile.json" then some "OLDDOC" else none)
      (saveProfileWriteTrace "users/9876543210/profile.json" "NEWDOC")
      "users/9876543210/profile.json") ∧
    some "" ≠ some "OLDDOC" ∧ some "" ≠ some "NEWDOC" := by
  refine ⟨?_, by decide, by decide⟩
  simp [observables, saveProfileWriteTrace, plainWriteTrace, applyEvent]

/-- C2, amended: documents persisted through `_atomic_write_json` (all of
`AuthStore`'s credential and session writes) do satisfy the all-or-nothing
contract — a reader of the destination path sees either the complete prior
content or the complete new content at every point of the write; but
`LocalStore`'s profile writes bypass the atomic writer and use a plain
truncating write (`saveProfileWriteTrace`). -/
theorem c2_atomic_writer (fs : TextFS) (tmp dst content : String)
    (hne : tmp ≠ dst) :
    (∀ o ∈ observables fs (atomicWriteTrace tmp dst content) dst,
      o = fs dst ∨ o = some content) ∧
    saveProfileWriteTrace dst content = plainWriteTrace dst content := by
  refine ⟨?_, rfl⟩
  have hd : dst ≠ tmp := fun h => hne h.symm
  have happ : ∀ s : String, "" ++ s = s := fun _ => rfl
  have hobs : observables fs (atomicWriteTrace tmp dst content) dst =
      [fs dst, fs dst, fs dst, some content] := by
    simp [observables, atomicWriteTrace, applyEvent, hd, happ]
  intro o ho
  rw [hobs] at ho
  simp only [List.mem_cons, List.not_mem_nil, or_false] at ho
  rcases ho with h | h | h | h <;> simp [h]

/-- C2, witness: `c2_atomic_writer` at a concrete state and write. -/
theorem c2_atomic_writer_witness :
    (".tmp_x" : String) ≠ "session.json" ∧
    (∀ o ∈ observables (fun _ => none)
        (atomicWriteTrace ".tmp_x" "session.json" "NEWDOC") "session.json",
      o = (fun (_ : String) => (none : Option String)) "session.json" ∨
        o = some "NEWDOC") :=
  ⟨by decide,
   (c2_atomic_writer (fun _ => none) ".tmp_x" "session.json" "NEWDOC"
     (by decide)).1⟩

/-! ## C4 — upload sequence numbering -/

theorem le_listMaxInt (l : List Int) : ∀ x : Int,
    x ≤ listMaxInt x l ∧ ∀ d ∈ l, d ≤ listMaxInt x l := by
  induction l with
  | nil => intro x; simp [listMaxInt]
  | cons b l ih =>
    intro x
    have hstep : listMaxInt x (b :: l) = listMaxInt (max x b) l := rfl
    obtain ⟨h1, h2⟩ := ih (max x b)
    refine ⟨?_, ?_⟩
    · rw [hstep]; exact le_trans (le_max_left x b) h1
    · intro d hd
      rw [hstep]
      rcases List.mem_cons.mp hd with rfl | hd'
      · exact le_trans (le_max_right x d) h1
      · exact h2 d hd'

theorem digit_lt_next (files : List String) (mob day : String) :
    ∀ d ∈ digitsForDay files mob day, d < next_digit_for_day files mob day := by
  intro d hd
  unfold next_digit_for_day
  cases h : digitsForDay files mob day with
  | nil => rw [h] at hd; simp at hd
  | cons a ds =>
    rw [h] at hd
    rcases List.mem_cons.mp hd with rfl | hd'
    · exact lt_of_le_of_lt (le_listMaxInt ds d).1 (lt_add_one _)
    · exact lt_of_le_of_lt ((le_listMaxInt ds a).2 d hd') (lt_add_one _)

/-- C4, counterexample: with files `_1` and `_3` present for a mobile+day,
the smallest positive unused sequence number is 2, but the store scans for
the maximum and adds one, so `add_upload` names the new file `_4`. -/
theorem c4_counterexample :
    next_digit_for_day
      ["9876543210_20260101_1.jpg", "9876543210_20260101_3.jpg"]
      "9876543210" "20260101" = 4 ∧
    smallestUnusedPos (digitsForDay
      ["9876543210_20260101_1.jpg", "9876543210_20260101_3.jpg"]
      "9876543210" "20260101") = 2 ∧
    (add_upload
      ⟨fun _ => none,
       fun m => if m = "9876543210"
         then ["9876543210_20260101_1.jpg", "9876543210_20260101_3.jpg"]
         else []⟩
      "9876543210" true ".jpg" "20260101").2 =
        .ok "9876543210_20260101_4.jpg" ∧
    ("9876543210_20260101_4.jpg" : String) ≠ "9876543210_20260101_2.jpg" := by
  refine ⟨by decide, by decide, by decide, by decide⟩

/-- C4, amended: `add_upload` names the destination
`{mobile}_{YYYYMMDD}_{N}{ext}` where `N` is one more than the largest
sequence number already used for that mobile+date combination (1 if none):
gaps left by deletions are not reused.  In particular `N` is strictly larger
than every used number, three successive uploads on one day are numbered
`_1`, `_2`, `_3`, and after deleting `_2` the next upload is `_4`. -/
theorem c4_next_digit (files : List String) (fs : LocalFS)
    (m mobv mob day ext : String) (hm : normMobileLocal m = some mobv) :
    (add_upload fs m true ext day).2 =
      .ok (uploadDestName (fs.uploads mobv) mobv day ext) ∧
    (∀ d ∈ digitsForDay files mob day, d < next_digit_for_day files mob day) ∧
    (digitsForDay files mob day = [] → next_digit_for_day files mob day = 1) ∧
    uploadDestName [] "9876543210" "20260101" ".jpg" =
      "9876543210_20260101_1.jpg" ∧
    uploadDestName ["9876543210_20260101_1.jpg"] "9876543210" "20260101" ".jpg" =
      "9876543210_20260101_2.jpg" ∧
    uploadDestName ["9876543210_20260101_1.jpg", "9876543210_20260101_2.jpg"]
      "9876543210" "20260101" ".jpg" = "9876543210_20260101_3.jpg" ∧
    uploadDestName ["9876543210_20260101_1.jpg", "9876543210_20260101_3.jpg"]
      "9876543210" "20260101" ".jpg" = "9876543210_20260101_4.jpg" ∧
    "9876543210_20260101_3.jpg" ∉
      ["9876543210_20260101_1.jpg", "9876543210_20260101_2.jpg"] := by
  refine ⟨?_, digit_lt_next files mob day, ?_, by decide, by decide, by decide,
    by decide, by decide⟩
  · simp [add_upload, hm]
  · intro h; simp [next_digit_for_day, h]

/-- C4, witness: `c4_next_digit` at a concrete store and input. -/
theorem c4_next_digit_witness :
    normMobileLocal "9876543210" = some "9876543210" ∧
    (add_upload ⟨fun _ => none, fun _ => []⟩ "9876543210" true ".jpg"
      "20260101").2 =
      .ok (uploadDestName ((⟨fun _ => none, fun _ => []⟩ : LocalFS).uploads
        "9876543210") "9876543210" "20260101" ".jpg") :=
  ⟨by decide,
   (c4_next_digit [] ⟨fun _ => none, fun _ => []⟩ "9876543210" "9876543210"
     "9876543210" "20260101" ".jpg" (by decide)).1⟩

/-! ## C9 — fail-soft probing operations -/

/-- C9, counterexample: `verify_pin` is not fail-soft: it has no
`try/except`, so a malformed mobile raises `ValidationError` (from
`_normalize_mobile`) instead of returning `false`, and a corrupt record
raises a JSON parse error. -/
theorem c9_counterexample :
    verify_pin (fun p s => p ++ s) ⟨fun _ => none, none⟩ "12345" "1234" =
      .error .validation ∧
    verify_pin (fun p s => p ++ s) ⟨fun _ => none, none⟩ "12345" "1234" ≠
      .ok false ∧
    verify_pin (fun p s => p ++ s) ⟨fun _ => none, none⟩ "12345" "1234" ≠
      .ok true ∧
    verify_pin (fun p s => p ++ s)
      ⟨fun m => if m = "9876543210" then some none else none, none⟩
      "9876543210" "1234" = .error .parseError := by
  refine ⟨by decide, by decide, by decide, by decide⟩

/-- C9, amended: `user_exists` and `current_user` are fail-soft — a
malformed mobile, a missing or unparseable session, or a session holding an
invalid mobile yield `false`/`none` rather than an error; `verify_pin`
returns `false` for a missing record or missing credential material, but
propagates a `ValidationError` on a malformed mobile or malformed PIN and a
parse error on a corrupt record. -/
theorem c9_fail_soft :
    (∀ (fs : AuthFS) (m : String) (e : AuthError),
      normalizeMobile m = .error e → user_exists fs m = false) ∧
    (∀ fs : AuthFS, fs.session = none → current_user fs = none) ∧
    (∀ fs : AuthFS, fs.session = some none → current_user fs = none) ∧
    (∀ (fs : AuthFS) (sess : Session) (e : AuthError),
      fs.session = some (some sess) → normalizeMobile sess.mobile = .error e →
      current_user fs = none) ∧
    (∀ (H : String → String → String) (fs : AuthFS) (m p mob : String),
      normalizeMobile m = .ok mob → fs.users mob = none →
      verify_pin H fs m p = .ok false) ∧
    (∀ (H : String → String → String) (fs : AuthFS) (m p mob : String)
      (u : AuthRec), normalizeMobile m = .ok mob →
      fs.users mob = some (some u) → (u.pin_salt = "" ∨ u.pin_hash = "") →
      verify_pin H fs m p = .ok false) ∧
    (∀ (H : String → String → String) (fs : AuthFS) (m p : String)
      (e : AuthError), normalizeMobile m = .error e →
      verify_pin H fs m p = .error e) ∧
    (∀ (H : String → String → String) (fs : AuthFS) (m p mob : String),
      normalizeMobile m = .ok mob → fs.users mob = some none →
      verify_pin H fs m p = .error .parseError) ∧
    (∀ (H : String → String → String) (fs : AuthFS) (m p mob : String)
      (u : AuthRec), normalizeMobile m = .ok mob →
      fs.users mob = some (some u) → u.pin_salt ≠ "" → u.pin_hash ≠ "" →
      pinValid p = false → verify_pin H fs m p = .error .validation) := by
  refine ⟨?_, ?_, ?_, ?_, ?_, ?_, ?_, ?_, ?_⟩
  · intro fs m e hm; simp [user_exists, hm]
  · intro fs hs; simp [current_user, hs]
  · intro fs hs; simp [current_user, hs]
  · intro fs sess e hs hm; simp [current_user, hs, hm]
  · intro H fs m p mob hm hu; simp [verify_pin, hm, hu]
  · intro H fs m p mob u hm hu hsh
    simp only [verify_pin, hm, hu]
    rw [if_pos hsh]
  · intro H fs m p e hm; simp [verify_pin, hm]
  · intro H fs m p mob hm hu; simp [verify_pin, hm, hu]
  · intro H fs m p mob u hm hu hsalt hhash hp
    simp only [verify_pin, hm, hu]
    rw [if_neg (by simp [hsalt, hhash]), if_pos (by simp [hp])]

/-- C9, witness: the `user_exists` conjunct of `c9_fail_soft` at a malformed
mobile. -/
theorem c9_fail_soft_witness :
    normalizeMobile "12345" = .error .validation ∧
    user_exists ⟨fun _ => none, none⟩ "12345" = false :=
  ⟨by decide,
   c9_fail_soft.1 ⟨fun _ => none, none⟩ "12345" .validation (by decide)⟩

/-! ## Step lemmas for `login` / `register` / `verify_pin` / `change_pin` -/

/-- A login attempt that reaches the hash comparison and mismatches:
increment `failed_attempts`, stamp `last_failed_at`, persist, raise
`InvalidCredentialsError`. -/
theorem login_wrong_step (H : String → String → String) (fs : AuthFS)
    (t : Nat) (m mob wp : String) (u : AuthRec)
    (hm : normalizeMobile m = .ok mob)
    (hu : fs.users mob = some (some u))
    (hthr : ¬(5 ≤ u.failed_attempts.getD 0 ∧
      (t : Int) - (u.last_failed_at.getD 0 : Int) < 300))
    (hs : u.pin_salt ≠ "") (hh : u.pin_hash ≠ "")
    (hp : pinValid wp = true)
    (hw : H wp u.pin_salt ≠ u.pin_hash) :
    login H fs t m wp =
      (fs.setUser mob (some { u with
        failed_attempts := some (u.failed_attempts.getD 0 + 1)
        last_failed_at := some t }), .error .invalidCredentials) := by
  simp only [login, hm, hu]
  rw [if_neg hthr, if_neg (by simp [hs, hh]), if_neg (not_not_intro hp),
    if_pos hw]

/-- A login attempt inside the throttle window fails with `ThrottledError`
before the PIN is even looked at, and writes nothing. -/
theorem login_throttled_step (H : String → String → String) (fs : AuthFS)
    (t : Nat) (m mob p : String) (u : AuthRec)
    (hm : normalizeMobile m = .ok mob)
    (hu : fs.users mob = some (some u))
    (hf : 5 ≤ u.failed_attempts.getD 0)
    (ht : (t : Int) - (u.last_failed_at.getD 0 : Int) < 300) :
    login H fs t m p = (fs, .error .throttled) := by
  simp only [login, hm, hu]
  rw [if_pos ⟨hf, ht⟩]

/-- A login attempt with the matching PIN outside the throttle window:
clear the throttle fields, stamp `updated_at`, persist, write the session,
return the mobile. -/
theorem login_success_step (H : String → String → String) (fs : AuthFS)
    (t : Nat) (m mob cp : String) (u : AuthRec)
    (hm : normalizeMobile m = .ok mob)
    (hu : fs.users mob = some (some u))
    (hthr : ¬(5 ≤ u.failed_attempts.getD 0 ∧
      (t : Int) - (u.last_failed_at.getD 0 : Int) < 300))
    (hs : u.pin_salt ≠ "") (hh : u.pin_hash ≠ "")
    (hp : pinValid cp = true)
    (hc : H cp u.pin_salt = u.pin_hash) :
    login H fs t m cp =
      ((fs.setUser mob (some { u with
        failed_attempts := none
        last_failed_at := none
        updated_at := some t })).setSession (some (some ⟨mob, t⟩)),
       .ok mob) := by
  simp only [login, hm, hu]
  rw [if_neg hthr, if_neg (by simp [hs, hh]), if_neg (not_not_intro hp),
    if_neg (not_not_intro hc)]

/-- A login against a record whose salt or hash is missing never returns the
identity; outside the throttle window it fails with `UninitializedError` and
writes nothing. -/
theorem login_uninitialized_step (H : String → String → String) (fs : AuthFS)
    (t : Nat) (m mob p : String) (u : AuthRec)
    (hm : normalizeMobile m = .ok mob)
    (hu : fs.users mob = some (some u))
    (hsh : u.pin_salt = "" ∨ u.pin_hash = "") :
    (∀ r, (login H fs t m p).2 ≠ .ok r) ∧
    (¬(5 ≤ u.failed_attempts.getD 0 ∧
        (t : Int) - (u.last_failed_at.getD 0 : Int) < 300) →
      login H fs t m p = (fs, .error .uninitialized)) := by
  constructor
  · intro r
    by_cases hthr : 5 ≤ u.failed_attempts.getD 0 ∧
        (t : Int) - (u.last_failed_at.getD 0 : Int) < 300
    · rw [login_throttled_step H fs t m mob p u hm hu hthr.1 hthr.2]
      simp
    · simp only [login, hm, hu]
      rw [if_neg hthr, if_pos hsh]
      simp
  · intro hthr
    simp only [login, hm, hu]
    rw [if_neg hthr, if_pos hsh]

/-- Successful `register`: the persisted record pairs the fresh salt with the
hash of the PIN over it and carries no throttle fields; the session is not
touched. -/
theorem register_ok (H : String → String → String) (salt : String)
    (fs : AuthFS) (now : Nat) (m pin mob : String)
    (hm : normalizeMobile m = .ok mob) (hp : pinValid pin = true) :
    (register H salt fs now m pin).2 = .ok mob ∧
    ∃ u, (register H salt fs now m pin).1.users mob = some (some u) ∧
      u.mobile = mob ∧ u.pin_salt = salt ∧ u.pin_hash = H pin salt ∧
      u.updated_at = some now ∧ u.failed_attempts = none ∧
      u.last_failed_at = none ∧
      (register H salt fs now m pin).1.session = fs.session := by
  simp only [register, hm]
  rw [if_pos hp]
  exact ⟨rfl, _, setUser_users_self fs mob _, rfl, rfl, rfl, rfl, rfl, rfl, rfl⟩

/-- Every branch of `login` leaves the stored `pin_salt`/`pin_hash` of the
record untouched (only throttle counters and `updated_at` are rewritten). -/
theorem login_preserves_credentials (H : String → String → String)
    (fs : AuthFS) (t : Nat) (m p mob : String) (u : AuthRec)
    (hm : normalizeMobile m = .ok mob)
    (hu : fs.users mob = some (some u)) :
    ∃ u', (login H fs t m p).1.users mob = some (some u') ∧
      u'.pin_salt = u.pin_salt ∧ u'.pin_hash = u.pin_hash := by
  simp only [login, hm, hu]
  split
  · exact ⟨u, hu, rfl, rfl⟩
  split
  · exact ⟨u, hu, rfl, rfl⟩
  split
  · exact ⟨u, hu, rfl, rfl⟩
  split
  · exact ⟨_, setUser_users_self fs mob _, rfl, rfl⟩
  · exact ⟨_, setUser_users_self fs mob _, rfl, rfl⟩

/-- `verify_pin` returns `true` exactly on the stored hash. -/
theorem verify_pin_true (H : String → String → String) (fs : AuthFS)
    (m mob p : String) (u : AuthRec)
    (hm : normalizeMobile m = .ok mob)
    (hu : fs.users mob = some (some u))
    (hs : u.pin_salt ≠ "") (hh : u.pin_hash ≠ "")
    (hp : pinValid p = true)
    (hc : H p u.pin_salt = u.pin_hash) :
    verify_pin H fs m p = .ok true := by
  simp only [verify_pin, hm, hu]
  rw [if_neg (by simp [hs, hh]), if_neg (not_not_intro hp)]
  simp [hc]

/-- `verify_pin` returns `false` on a mismatching PIN. -/
theorem verify_pin_false_wrong (H : String → String → String) (fs : AuthFS)
    (m mob p : String) (u : AuthRec)
    (hm : normalizeMobile m = .ok mob)
    (hu : fs.users mob = some (some u))
    (hs : u.pin_salt ≠ "") (hh : u.pin_hash ≠ "")
    (hp : pinValid p = true)
    (hw : H p u.pin_salt ≠ u.pin_hash) :
    verify_pin H fs m p = .ok false := by
  simp only [verify_pin, hm, hu]
  rw [if_neg (by simp [hs, hh]), if_neg (not_not_intro hp)]
  simp [hw]

/-- `login` with a PIN that does not hash to the stored digest never returns
the identity, whatever branch it takes. -/
theorem login_wrong_never_ok (H : String → String → String) (fs : AuthFS)
    (t : Nat) (m mob p : String) (u : AuthRec)
    (hm : normalizeMobile m = .ok mob)
    (hu : fs.users mob = some (some u))
    (hw : H p u.pin_salt ≠ u.pin_hash) :
    ∀ r, (login H fs t m p).2 ≠ .ok r := by
  intro r
  by_cases h1 : 5 ≤ u.failed_attempts.getD 0 ∧
      (t : Int) - (u.last_failed_at.getD 0 : Int) < 300
  · rw [login_throttled_step H fs t m mob p u hm hu h1.1 h1.2]; simp
  by_cases h2 : u.pin_salt = "" ∨ u.pin_hash = ""
  · exact (login_uninitialized_step H fs t m mob p u hm hu h2).1 r
  by_cases h3 : pinValid p = true
  · rw [login_wrong_step H fs t m mob p u hm hu h1
      (fun e => h2 (Or.inl e)) (fun e => h2 (Or.inr e)) h3 hw]
    simp
  · simp only [login, hm, hu]
    rw [if_neg h1, if_neg h2, if_pos (by simp [h3])]
    simp

/-- `change_pin` with a wrong old PIN fails with `InvalidCredentialsError`
and does not touch the file system. -/
theorem change_pin_wrong (H : String → String → String) (freshSalt : String)
    (fs : AuthFS) (now : Nat) (m mob oldPin newPin : String) (u : AuthRec)
    (hm : normalizeMobile m = .ok mob)
    (hu : fs.users mob = some (some u))
    (hs : u.pin_salt ≠ "") (hh : u.pin_hash ≠ "")
    (hp : pinValid oldPin = true)
    (hw : H oldPin u.pin_salt ≠ u.pin_hash) :
    change_pin H freshSalt fs now m oldPin newPin =
      (fs, .error .invalidCredentials) := by
  simp only [change_pin,
    verify_pin_false_wrong H fs m mob oldPin u hm hu hs hh hp hw]

/-- `change_pin` with the correct old PIN persists the fresh salt together
with the hash of the new PIN and leaves the throttle counters as they
were. -/
theorem change_pin_ok (H : String → String → String) (freshSalt : String)
    (fs : AuthFS) (now : Nat) (m mob oldPin newPin : String) (u : AuthRec)
    (hm : normalizeMobile m = .ok mob)
    (hu : fs.users mob = some (some u))
    (hs : u.pin_salt ≠ "") (hh : u.pin_hash ≠ "")
    (hp : pinValid oldPin = true)
    (hc : H oldPin u.pin_salt = u.pin_hash)
    (hnew : pinValid newPin = true) :
    change_pin H freshSalt fs now m oldPin newPin =
      (fs.setUser mob (some { u with
        pin_salt := freshSalt
        pin_hash := H newPin freshSalt
        updated_at := some now }), .ok ()) := by
  simp only [change_pin, verify_pin_true H fs m mob oldPin u hm hu hs hh hp hc,
    hm, hu]
  rw [if_pos hnew]

/-! ## C1 — register then login round-trip -/

/-- C1: for every input mobile that normalizes to a 10-digit number and every
4–6-digit PIN, `register(mobile, pin)` followed by `login(mobile, pin)`
succeeds, and both return the same normalized mobile.  (`salt` is the fresh
`secrets.token_hex(16)` — 32 hex chars, hence nonempty — and the PBKDF2
digest of a PIN is a 64-char hex string, hence nonempty; both facts enter as
hypotheses on the abstracted hash.) -/
theorem c1_register_then_login (H : String → String → String) (salt : String)
    (fs : AuthFS) (t1 t2 : Nat) (m pin mob : String)
    (hm : normalizeMobile m = .ok mob)
    (hpin : pinValid pin = true)
    (hsalt : salt ≠ "") (hhash : H pin salt ≠ "") :
    (register H salt fs t1 m pin).2 = .ok mob ∧
    (login H (register H salt fs t1 m pin).1 t2 m pin).2 = .ok mob := by
  obtain ⟨hr2, u, hu, _, husalt, huhash, _, hfa, _, _⟩ :=
    register_ok H salt fs t1 m pin mob hm hpin
  refine ⟨hr2, ?_⟩
  have hthr : ¬(5 ≤ u.failed_attempts.getD 0 ∧
      (t2 : Int) - (u.last_failed_at.getD 0 : Int) < 300) := by
    simp [hfa]
  have hs' : u.pin_salt ≠ "" := by rw [husalt]; exact hsalt
  have hh' : u.pin_hash ≠ "" := by rw [huhash]; exact hhash
  have hc : H pin u.pin_salt = u.pin_hash := by rw [husalt, huhash]
  rw [login_success_step H _ t2 m mob pin u hm hu hthr hs' hh' hpin hc]

/-- C1, witness: a concrete register/login round-trip. -/
theorem c1_register_then_login_witness :
    normalizeMobile "9876543210" = .ok "9876543210" ∧
    pinValid "1234" = true ∧ ("salt1" : String) ≠ "" ∧
    (fun (p s : String) => s ++ ":" ++ p) "1234" "salt1" ≠ "" ∧
    ((register (fun p s => s ++ ":" ++ p) "salt1" ⟨fun _ => none, none⟩ 10
        "9876543210" "1234").2 = .ok "9876543210" ∧
      (login (fun p s => s ++ ":" ++ p)
        (register (fun p s => s ++ ":" ++ p) "salt1" ⟨fun _ => none, none⟩ 10
          "9876543210" "1234").1 20 "9876543210" "1234").2 =
        .ok "9876543210") :=
  ⟨by decide, by decide, by decide, by decide,
   c1_register_then_login (fun p s => s ++ ":" ++ p) "salt1"
     ⟨fun _ => none, none⟩ 10 20 "9876543210" "1234" "9876543210"
     (by decide) (by decide) (by decide) (by decide)⟩

/-! ## C10 — elapsed time alone never resets the failure counter -/

/-- C10: on a record with `failed_attempts ≥ 5` whose last failure is at
least 300 s old, a wrong-PIN login is not throttled; it fails with
`InvalidCredentialsError` and persists `failed_attempts + 1` (≥ 6) with
`last_failed_at` set to the current time — so the immediately following
attempt, whatever PIN it carries, is throttled for another 300 s. -/
theorem c10_no_time_reset (H : String → String → String) (fs : AuthFS)
    (t t' : Nat) (m mob wp : String) (u : AuthRec)
    (hm : normalizeMobile m = .ok mob)
    (hu : fs.users mob = some (some u))
    (hfails : 5 ≤ u.failed_attempts.getD 0)
    (hold : (300 : Int) ≤ (t : Int) - (u.last_failed_at.getD 0 : Int))
    (hs : u.pin_salt ≠ "") (hh : u.pin_hash ≠ "")
    (hwp : pinValid wp = true)
    (hw : H wp u.pin_salt ≠ u.pin_hash)
    (ht' : (t' : Int) - (t : Int) < 300) :
    (login H fs t m wp).2 = .error .invalidCredentials ∧
    (∃ u', (login H fs t m wp).1.users mob = some (some u') ∧
      u'.failed_attempts = some (u.failed_attempts.getD 0 + 1) ∧
      6 ≤ u'.failed_attempts.getD 0 ∧ u'.last_failed_at = some t) ∧
    (∀ p : String,
      (login H (login H fs t m wp).1 t' m p).2 = .error .throttled) := by
  have hthr : ¬(5 ≤ u.failed_attempts.getD 0 ∧
      (t : Int) - (u.last_failed_at.getD 0 : Int) < 300) :=
    fun hcon => absurd hcon.2 (not_lt.mpr hold)
  have hstep := login_wrong_step H fs t m mob wp u hm hu hthr hs hh hwp hw
  rw [hstep]
  refine ⟨rfl, ⟨_, setUser_users_self fs mob _, rfl, ?_, rfl⟩, ?_⟩
  · simpa using Nat.succ_le_succ hfails
  · intro p
    rw [login_throttled_step H _ t' m mob p _ hm
      (setUser_users_self fs mob _) (by simpa using Nat.le_succ_of_le hfails)
      (by simpa using ht')]

/-- C10, witness: `c10_no_time_reset` at a concrete throttled-then-expired
record. -/
theorem c10_no_time_reset_witness :
    normalizeMobile "9876543210" = .ok "9876543210" ∧
    ((login (fun p s => s ++ ":" ++ p)
        ⟨fun mm => if mm = "9876543210"
          then some (some ⟨"9876543210", "salt1", "salt1:1234", some 1,
            some 1, some 5, some 100⟩) else none, none⟩
        500 "9876543210" "9999").2 = .error .invalidCredentials ∧
      (∃ u', (login (fun p s => s ++ ":" ++ p)
          ⟨fun mm => if mm = "9876543210"
            then some (some ⟨"9876543210", "salt1", "salt1:1234", some 1,
              some 1, some 5, some 100⟩) else none, none⟩
          500 "9876543210" "9999").1.users "9876543210" = some (some u') ∧
        u'.failed_attempts = some ((⟨"9876543210", "salt1", "salt1:1234",
          some 1, some 1, some 5, some 100⟩ : AuthRec).failed_attempts.getD 0
          + 1) ∧
        6 ≤ u'.failed_attempts.getD 0 ∧ u'.last_failed_at = some 500) ∧
      (∀ p : String,
        (login (fun p s => s ++ ":" ++ p)
          (login (fun p s => s ++ ":" ++ p)
            ⟨fun mm => if mm = "9876543210"
              then some (some ⟨"9876543210", "salt1", "salt1:1234", some 1,
                some 1, some 5, some 100⟩) else none, none⟩
            500 "9876543210" "9999").1 600 "9876543210" p).2 =
          .error .throttled)) :=
  ⟨by decide,
   c10_no_time_reset (fun p s => s ++ ":" ++ p)
     ⟨fun mm => if mm = "9876543210"
       then some (some ⟨"9876543210", "salt1", "salt1:1234", some 1, some 1,
         some 5, some 100⟩) else none, none⟩
     500 600 "9876543210" "9876543210" "9999"
     ⟨"9876543210", "salt1", "salt1:1234", some 1, some 1, some 5, some 100⟩
     (by decide) (by decide) (by decide) (by decide) (by decide) (by decide)
     (by decide) (by decide) (by decide)⟩

/-! ## C7 — changePin -/

/-- C7: `change_pin` with a wrong old PIN fails with
`InvalidCredentialsError` and leaves the store untouched; with the correct
old PIN it persists a fresh salt and the new PIN's hash without modifying the
throttle counters, after which `verify_pin` rejects the old PIN and accepts
the new one (given that the two PINs do not hash-collide under the fresh
salt). -/
theorem c7_change_pin (H : String → String → String) (freshSalt : String)
    (fs : AuthFS) (now : Nat) (m mob oldPin newPin : String) (u : AuthRec)
    (hm : normalizeMobile m = .ok mob)
    (hu : fs.users mob = some (some u))
    (hs : u.pin_salt ≠ "") (hh : u.pin_hash ≠ "")
    (hpold : pinValid oldPin = true) :
    (H oldPin u.pin_salt ≠ u.pin_hash →
      change_pin H freshSalt fs now m oldPin newPin =
        (fs, .error .invalidCredentials)) ∧
    (H oldPin u.pin_salt = u.pin_hash → pinValid newPin = true →
      freshSalt ≠ "" → H newPin freshSalt ≠ "" →
      H oldPin freshSalt ≠ H newPin freshSalt →
      ∃ u', change_pin H freshSalt fs now m oldPin newPin =
          (fs.setUser mob (some u'), .ok ()) ∧
        u'.pin_salt = freshSalt ∧ u'.pin_hash = H newPin freshSalt ∧
        u'.failed_attempts = u.failed_attempts ∧
        u'.last_failed_at = u.last_failed_at ∧
        verify_pin H (fs.setUser mob (some u')) m oldPin = .ok false ∧
        verify_pin H (fs.setUser mob (some u')) m newPin = .ok true ∧
        (∀ (t : Nat) (r : String),
          (login H (fs.setUser mob (some u')) t m oldPin).2 ≠ .ok r) ∧
        (∀ t : Nat, ¬(5 ≤ u'.failed_attempts.getD 0 ∧
            (t : Int) - (u'.last_failed_at.getD 0 : Int) < 300) →
          (login H (fs.setUser mob (some u')) t m newPin).2 = .ok mob)) := by
  constructor
  · intro hw
    exact change_pin_wrong H freshSalt fs now m mob oldPin newPin u hm hu hs
      hh hpold hw
  · intro hc hnew hfsalt hnh hdiff
    refine ⟨_, change_pin_ok H freshSalt fs now m mob oldPin newPin u hm hu
      hs hh hpold hc hnew, rfl, rfl, rfl, rfl, ?_, ?_, ?_, ?_⟩
    · exact verify_pin_false_wrong H _ m mob oldPin _ hm
        (setUser_users_self fs mob _) hfsalt hnh hpold hdiff
    · exact verify_pin_true H _ m mob newPin _ hm
        (setUser_users_self fs mob _) hfsalt hnh hnew rfl
    · intro t r
      exact login_wrong_never_ok H _ t m mob oldPin _ hm
        (setUser_users_self fs mob _) hdiff r
    · intro t hthr
      rw [login_success_step H _ t m mob newPin _ hm
        (setUser_users_self fs mob _) hthr hfsalt hnh hnew rfl]

/-- C7, witness: a concrete PIN change, both branches. -/
theorem c7_change_pin_witness :
    normalizeMobile "9876543210" = .ok "9876543210" ∧
    ((fun (p s : String) => s ++ ":" ++ p) "9999" "salt1" ≠ "salt1:1234" →
      change_pin (fun p s => s ++ ":" ++ p) "salt2"
        ⟨fun mm => if mm = "9876543210"
          then some (some ⟨"9876543210", "salt1", "salt1:1234", some 1,
            some 1, none, none⟩) else none, none⟩
        50 "9876543210" "9999" "5678" =
        (⟨fun mm => if mm = "9876543210"
          then some (some ⟨"9876543210", "salt1", "salt1:1234", some 1,
            some 1, none, none⟩) else none, none⟩,
         .error .invalidCredentials)) :=
  ⟨by decide,
   (c7_change_pin (fun p s => s ++ ":" ++ p) "salt2"
     ⟨fun mm => if mm = "9876543210"
       then some (some ⟨"9876543210", "salt1", "salt1:1234", some 1, some 1,
         none, none⟩) else none, none⟩
     50 "9876543210" "9876543210" "9999" "5678"
     ⟨"9876543210", "salt1", "salt1:1234", some 1, some 1, none, none⟩
     (by decide) (by decide) (by decide) (by decide) (by decide)).1⟩

/-! ## C8 — salt/hash invariant -/

/-- C8, counterexample: the legacy-map migration in `AuthStore.__init__`
also writes credential records, and for a legacy entry with no
`pin_salt`/`pin_hash` it persists a record in which both are empty — so not
every credential-writing operation sets them non-empty, contradicting the
claim as stated. -/
theorem c8_counterexample :
    (migrateLegacy 1000 [("9876543210", ⟨none, none, none, none⟩)]
      ⟨fun _ => none, none⟩).users "9876543210" =
      some (some (migratePayload 1000 "9876543210" ⟨none, none, none, none⟩)) ∧
    (migratePayload 1000 "9876543210" ⟨none, none, none, none⟩).pin_salt = "" ∧
    (migratePayload 1000 "9876543210" ⟨none, none, none, none⟩).pin_hash = "" := by
  refine ⟨by decide, rfl, rfl⟩

/-- C8, amended: the normal credential-writing operations — `register`,
`login`, `change_pin` — always persist `pin_salt` and `pin_hash` together
and non-empty (given the nonempty fresh salt and nonempty PBKDF2 digest);
the legacy migration may materialize records with empty credential material,
and `login` on any record missing either field never authenticates, failing
with `UninitializedError` when it is not throttled. -/
theorem c8_salt_hash_invariant :
    (∀ (H : String → String → String) (salt : String) (fs : AuthFS)
      (now : Nat) (m pin mob : String), normalizeMobile m = .ok mob →
      pinValid pin = true → salt ≠ "" → H pin salt ≠ "" →
      ∃ u, (register H salt fs now m pin).1.users mob = some (some u) ∧
        u.pin_salt ≠ "" ∧ u.pin_hash ≠ "") ∧
    (∀ (H : String → String → String) (fs : AuthFS) (t : Nat)
      (m p mob : String) (u : AuthRec), normalizeMobile m = .ok mob →
      fs.users mob = some (some u) →
      ∃ u', (login H fs t m p).1.users mob = some (some u') ∧
        u'.pin_salt = u.pin_salt ∧ u'.pin_hash = u.pin_hash) ∧
    (∀ (H : String → String → String) (freshSalt : String) (fs : AuthFS)
      (now : Nat) (m mob oldPin newPin : String) (u : AuthRec),
      normalizeMobile m = .ok mob → fs.users mob = some (some u) →
      u.pin_salt ≠ "" → u.pin_hash ≠ "" → pinValid oldPin = true →
      H oldPin u.pin_salt = u.pin_hash → pinValid newPin = true →
      freshSalt ≠ "" → H newPin freshSalt ≠ "" →
      ∃ u', (change_pin H freshSalt fs now m oldPin newPin).1.users mob =
          some (some u') ∧ u'.pin_salt ≠ "" ∧ u'.pin_hash ≠ "") ∧
    (∀ (H : String → String → String) (fs : AuthFS) (t : Nat)
      (m p mob : String) (u : AuthRec), normalizeMobile m = .ok mob →
      fs.users mob = some (some u) →
      (u.pin_salt = "" ∨ u.pin_hash = "") →
      (∀ r, (login H fs t m p).2 ≠ .ok r) ∧
      (¬(5 ≤ u.failed_attempts.getD 0 ∧
          (t : Int) - (u.last_failed_at.getD 0 : Int) < 300) →
        login H fs t m p = (fs, .error .uninitialized))) := by
  refine ⟨?_, ?_, ?_, ?_⟩
  · intro H salt fs now m pin mob hm hp hsalt hhash
    obtain ⟨_, u, hu, _, husalt, huhash, _, _, _, _⟩ :=
      register_ok H salt fs now m pin mob hm hp
    exact ⟨u, hu, by rw [husalt]; exact hsalt, by rw [huhash]; exact hhash⟩
  · intro H fs t m p mob u hm hu
    exact login_preserves_credentials H fs t m p mob u hm hu
  · intro H freshSalt fs now m mob oldPin newPin u hm hu hs hh hpold hc hnew
      hfsalt hnh
    rw [change_pin_ok H freshSalt fs now m mob oldPin newPin u hm hu hs hh
      hpold hc hnew]
    exact ⟨_, setUser_users_self fs mob _, hfsalt, hnh⟩
  · intro H fs t m p mob u hm hu hsh
    exact login_uninitialized_step H fs t m mob p u hm hu hsh

/-- C8, witness: the `register` conjunct of `c8_salt_hash_invariant` at a
concrete input. -/
theorem c8_salt_hash_invariant_witness :
    normalizeMobile "9876543210" = .ok "9876543210" ∧
    ∃ u, (register (fun p s => s ++ ":" ++ p) "salt1" ⟨fun _ => none, none⟩
        10 "9876543210" "1234").1.users "9876543210" = some (some u) ∧
      u.pin_salt ≠ "" ∧ u.pin_hash ≠ "" :=
  ⟨by decide,
   c8_salt_hash_invariant.1 (fun p s => s ++ ":" ++ p) "salt1"
     ⟨fun _ => none, none⟩ 10 "9876543210" "1234" "9876543210"
     (by decide) (by decide) (by decide) (by decide)⟩

/-! ## C3 — throttle lifecycle -/

/-- C3: starting from a registered record (no throttle fields), five
consecutive wrong-PIN logins each fail with `InvalidCredentialsError` and
leave the record with `failed_attempts = 5` and `last_failed_at = t5`
(the `Throttled` state); a sixth attempt within 300 s fails with
`ThrottledError` whatever PIN it carries — the PIN is not checked in that
branch — and writes nothing; and a correct-PIN login at least 300 s after
the last failure succeeds and clears both throttle fields from the
persisted record. -/
theorem c3_throttle_lifecycle (H : String → String → String) (fs : AuthFS)
    (m mob wp cp : String) (rec : AuthRec) (t1 t2 t3 t4 t5 t6 t7 : Nat)
    (hm : normalizeMobile m = .ok mob)
    (hu : fs.users mob = some (some rec))
    (hfa : rec.failed_attempts = none)
    (hs : rec.pin_salt ≠ "") (hh : rec.pin_hash ≠ "")
    (hwp : pinValid wp = true)
    (hw : H wp rec.pin_salt ≠ rec.pin_hash)
    (hcp : pinValid cp = true)
    (hc : H cp rec.pin_salt = rec.pin_hash)
    (h6 : (t6 : Int) - (t5 : Int) < 300)
    (h7 : (300 : Int) ≤ (t7 : Int) - (t5 : Int)) :
    let s1 := (login H fs t1 m wp).1
    let s2 := (login H s1 t2 m wp).1
    let s3 := (login H s2 t3 m wp).1
    let s4 := (login H s3 t4 m wp).1
    let s5 := (login H s4 t5 m wp).1
    (login H fs t1 m wp).2 = .error .invalidCredentials ∧
    (login H s4 t5 m wp).2 = .error .invalidCredentials ∧
    (∃ u5, s5.users mob = some (some u5) ∧
      u5.failed_attempts = some 5 ∧ u5.last_failed_at = some t5) ∧
    (∀ p : String, login H s5 t6 m p = (s5, .error .throttled)) ∧
    (login H s5 t7 m cp).2 = .ok mob ∧
    (∃ u7, (login H s5 t7 m cp).1.users mob = some (some u7) ∧
      u7.failed_attempts = none ∧ u7.last_failed_at = none) := by
  have hx0 : rec.failed_attempts.getD 0 = 0 := by rw [hfa]; rfl
  -- attempt 1
  have step1 := login_wrong_step H fs t1 m mob wp rec hm hu
    (by simp [hx0]) hs hh hwp hw
  set r1 : AuthRec := { rec with
    failed_attempts := some (rec.failed_attempts.getD 0 + 1)
    last_failed_at := some t1 } with hr1
  set f1 : AuthFS := fs.setUser mob (some r1) with hf1
  have hu1 : f1.users mob = some (some r1) := setUser_users_self fs mob _
  -- attempt 2
  have step2 := login_wrong_step H f1 t2 m mob wp r1 hm hu1
    (by simp [hx0]) hs hh hwp hw
  set r2 : AuthRec := { r1 with
    failed_attempts := some (r1.failed_attempts.getD 0 + 1)
    last_failed_at := some t2 } with hr2
  set f2 : AuthFS := f1.setUser mob (some r2) with hf2
  have hu2 : f2.users mob = some (some r2) := setUser_users_self f1 mob _
  -- attempt 3
  have step3 := login_wrong_step H f2 t3 m mob wp r2 hm hu2
    (by simp [hx0]) hs hh hwp hw
  set r3 : AuthRec := { r2 with
    failed_attempts := some (r2.failed_attempts.getD 0 + 1)
    last_failed_at := some t3 } with hr3
  set f3 : AuthFS := f2.setUser mob (some r3) with hf3
  have hu3 : f3.users mob = some (some r3) := setUser_users_self f2 mob _
  -- attempt 4
  have step4 := login_wrong_step H f3 t4 m mob wp r3 hm hu3
    (by simp [hx0]) hs hh hwp hw
  set r4 : AuthRec := { r3 with
    failed_attempts := some (r3.failed_attempts.getD 0 + 1)
    last_failed_at := some t4 } with hr4
  set f4 : AuthFS := f3.setUser mob (some r4) with hf4
  have hu4 : f4.users mob = some (some r4) := setUser_users_self f3 mob _
  -- attempt 5
  have step5 := login_wrong_step H f4 t5 m mob wp r4 hm hu4
    (by simp [hx0]) hs hh hwp hw
  set r5 : AuthRec := { r4 with
    failed_attempts := some (r4.failed_attempts.getD 0 + 1)
    last_failed_at := some t5 } with hr5
  set f5 : AuthFS := f4.setUser mob (some r5) with hf5
  have hu5 : f5.users mob = some (some r5) := setUser_users_self f4 mob _
  have hx5 : r5.failed_attempts.getD 0 = 5 := by simp [hx0]
  have hl5 : r5.last_failed_at = some t5 := rfl
  have hfa5 : r5.failed_attempts = some 5 := by simp [hx0]
  -- the sixth attempt is throttled for every PIN
  have hthrottle : ∀ p : String, login H f5 t6 m p = (f5, .error .throttled) :=
    fun p => login_throttled_step H f5 t6 m mob p r5 hm hu5
      (by rw [hx5]) h6
  -- the recovery login succeeds
  have hthr7 : ¬(5 ≤ r5.failed_attempts.getD 0 ∧
      (t7 : Int) - (r5.last_failed_at.getD 0 : Int) < 300) :=
    fun hcon => absurd hcon.2 (not_lt.mpr h7)
  have step7 := login_success_step H f5 t7 m mob cp r5 hm hu5 hthr7
    hs hh hcp hc
  -- assemble
  dsimp only
  rw [step1]
  dsimp only
  rw [step2]
  dsimp only
  rw [step3]
  dsimp only
  rw [step4]
  dsimp only
  rw [step5]
  dsimp only
  rw [step7]
  refine ⟨rfl, rfl, ⟨r5, hu5, hfa5, hl5⟩, hthrottle, rfl, ?_⟩
  exact ⟨{ r5 with failed_attempts := none, last_failed_at := none, updated_at := some t7 },
    setUser_users_self f5 mob _, rfl, rfl⟩

/-- C3, witness: `c3_throttle_lifecycle` at a concrete user, times 1…5 for
the failures, 100 for the throttled attempt, 400 for the recovery. -/
theorem c3_throttle_lifecycle_witness :
    (normalizeMobile "9876543210" = .ok "9876543210" ∧
     fsFix.users "9876543210" = some (some recFix) ∧
     recFix.failed_attempts = none ∧
     hashFix "9999" recFix.pin_salt ≠ recFix.pin_hash ∧
     hashFix "1234" recFix.pin_salt = recFix.pin_hash ∧
     (100 : Int) - (5 : Int) < 300 ∧ (300 : Int) ≤ (400 : Int) - (5 : Int)) ∧
    (let s1 := (login hashFix fsFix 1 "9876543210" "9999").1
     let s2 := (login hashFix s1 2 "9876543210" "9999").1
     let s3 := (login hashFix s2 3 "9876543210" "9999").1
     let s4 := (login hashFix s3 4 "9876543210" "9999").1
     let s5 := (login hashFix s4 5 "9876543210" "9999").1
     (login hashFix fsFix 1 "9876543210" "9999").2 =
       .error .invalidCredentials ∧
     (login hashFix s4 5 "9876543210" "9999").2 =
       .error .invalidCredentials ∧
     (∃ u5, s5.users "9876543210" = some (some u5) ∧
       u5.failed_attempts = some 5 ∧ u5.last_failed_at = some 5) ∧
     (∀ p : String, login hashFix s5 100 "9876543210" p =
       (s5, .error .throttled)) ∧
     (login hashFix s5 400 "9876543210" "1234").2 = .ok "9876543210" ∧
     (∃ u7, (login hashFix s5 400 "9876543210" "1234").1.users "9876543210" =
         some (some u7) ∧
       u7.failed_attempts = none ∧ u7.last_failed_at = none)) :=
  ⟨⟨by decide, by decide, by decide, by decide, by decide, by decide,
    by decide⟩,
   c3_throttle_lifecycle hashFix fsFix "9876543210" "9876543210" "9999"
     "1234" recFix 1 2 3 4 5 100 400 (by decide) (by decide) (by decide)
     (by decide) (by decide) (by decide) (by decide) (by decide) (by decide)
     (by decide) (by decide)⟩

/-! ## C6 — profile save/load round trip -/

theorem lookup_setdefault_some (l : List (String × String)) (k k0 v v0 : String)
    (h : lookupKV l k = some v) :
    lookupKV (setdefaultKV l k0 v0) k = some v := by
  unfold setdefaultKV
  split
  · exact h
  · unfold lookupKV at h ⊢
    rw [List.find?_append]
    rcases hf : l.find? (fun p => p.1 = k) with _ | q
    · rw [hf] at h; simp at h
    · rw [hf] at h; simp_all [Option.or]

theorem lookup_setdefault_none_ne (l : List (String × String))
    (k k0 v0 : String) (hne : k ≠ k0) (h : lookupKV l k = none) :
    lookupKV (setdefaultKV l k0 v0) k = none := by
  unfold setdefaultKV
  split
  · exact h
  · unfold lookupKV at h ⊢
    rw [List.find?_append]
    have hf : l.find? (fun p => p.1 = k) = none := by
      rcases hq : l.find? (fun p => p.1 = k) with _ | q
      · exact hq
      · rw [hq] at h; simp at h
    rw [hf]
    simp [Option.or, List.find?, Ne.symm hne]

theorem lookup_setdefault_none_eq (l : List (String × String))
    (k v0 : String) (h : lookupKV l k = none) :
    lookupKV (setdefaultKV l k v0) k = some v0 := by
  unfold setdefaultKV
  have hf : l.find? (fun p => p.1 = k) = none := by
    unfold lookupKV at h
    rcases hq : l.find? (fun p => p.1 = k) with _ | q
    · exact hq
    · rw [hq] at h; simp at h
  rw [if_neg (by unfold lookupKV; rw [hf]; simp)]
  unfold lookupKV
  rw [List.find?_append, hf]
  simp [Option.or, List.find?]

/-- C6: for a valid 10-digit mobile `m`, `saveProfile(m, data)` followed by
`loadProfile(m)` returns a record that keeps every key of `data` with its
value unchanged and adds each missing fixed key with its default (`mobile`
to `m`, the other five to `""`). -/
theorem c6_profile_round_trip (fs : LocalFS) (m : String)
    (data : List (String × String))
    (h10 : m.length = 10) (hd : m.data.all Char.isDigit = true) :
    (load_profile (save_profile fs m data).1 m).2 =
      .ok (applyProfileDefaults m data) ∧
    (∀ k v, lookupKV data k = some v →
      lookupKV (applyProfileDefaults m data) k = some v) ∧
    (lookupKV data "mobile" = none →
      lookupKV (applyProfileDefaults m data) "mobile" = some m) ∧
    (lookupKV data "name" = none →
      lookupKV (applyProfileDefaults m data) "name" = some "") ∧
    (lookupKV data "email" = none →
      lookupKV (applyProfileDefaults m data) "email" = some "") ∧
    (lookupKV data "state" = none →
      lookupKV (applyProfileDefaults m data) "state" = some "") ∧
    (lookupKV data "district" = none →
      lookupKV (applyProfileDefaults m data) "district" = some "") ∧
    (lookupKV data "address" = none →
      lookupKV (applyProfileDefaults m data) "address" = some "") := by
  have hnorm : normMobileLocal m = some m := by
    have hs := stripNonDigits_of_digits m hd
    have := normMobileLocal_eq_some m (by rw [hs]; exact h10)
    rwa [hs] at this
  refine ⟨?_, ?_, ?_, ?_, ?_, ?_, ?_, ?_⟩
  · simp only [save_profile, hnorm, load_profile]
    simp [LocalFS.setProfile]
  · intro k v h
    unfold applyProfileDefaults
    exact lookup_setdefault_some _ _ _ _ _ (lookup_setdefault_some _ _ _ _ _
      (lookup_setdefault_some _ _ _ _ _ (lookup_setdefault_some _ _ _ _ _
        (lookup_setdefault_some _ _ _ _ _
          (lookup_setdefault_some _ _ _ _ _ h)))))
  · intro h
    unfold applyProfileDefaults
    exact lookup_setdefault_some _ _ _ _ _ (lookup_setdefault_some _ _ _ _ _
      (lookup_setdefault_some _ _ _ _ _ (lookup_setdefault_some _ _ _ _ _
        (lookup_setdefault_some _ _ _ _ _
          (lookup_setdefault_none_eq _ _ _ h)))))
  · intro h
    unfold applyProfileDefaults
    exact lookup_setdefault_some _ _ _ _ _ (lookup_setdefault_some _ _ _ _ _
      (lookup_setdefault_some _ _ _ _ _ (lookup_setdefault_some _ _ _ _ _
        (lookup_setdefault_none_eq _ _ _
          (lookup_setdefault_none_ne _ _ _ _ (by decide) h)))))
  · intro h
    unfold applyProfileDefaults
    exact lookup_setdefault_some _ _ _ _ _ (lookup_setdefault_some _ _ _ _ _
      (lookup_setdefault_some _ _ _ _ _ (lookup_setdefault_none_eq _ _ _
        (lookup_setdefault_none_ne _ _ _ _ (by decide)
          (lookup_setdefault_none_ne _ _ _ _ (by decide) h)))))
  · intro h
    unfold applyProfileDefaults
    exact lookup_setdefault_some _ _ _ _ _ (lookup_setdefault_some _ _ _ _ _
      (lookup_setdefault_none_eq _ _ _
        (lookup_setdefault_none_ne _ _ _ _ (by decide)
          (lookup_setdefault_none_ne _ _ _ _ (by decide)
            (lookup_setdefault_none_ne _ _ _ _ (by decide) h)))))
  · intro h
    unfold applyProfileDefaults
    exact lookup_setdefault_some _ _ _ _ _ (lookup_setdefault_none_eq _ _ _
      (lookup_setdefault_none_ne _ _ _ _ (by decide)
        (lookup_setdefault_none_ne _ _ _ _ (by decide)
          (lookup_setdefault_none_ne _ _ _ _ (by decide)
            (lookup_setdefault_none_ne _ _ _ _ (by decide) h)))))
  · intro h
    unfold applyProfileDefaults
    exact lookup_setdefault_none_eq _ _ _
      (lookup_setdefault_none_ne _ _ _ _ (by decide)
        (lookup_setdefault_none_ne _ _ _ _ (by decide)
          (lookup_setdefault_none_ne _ _ _ _ (by decide)
            (lookup_setdefault_none_ne _ _ _ _ (by decide)
              (lookup_setdefault_none_ne _ _ _ _ (by decide) h)))))

/-- C6, witness: a round trip for a record carrying one extension key and one
explicit fixed key. -/
theorem c6_profile_round_trip_witness :
    ("9876543210" : String).length = 10 ∧
    (load_profile (save_profile ⟨fun _ => none, fun _ => []⟩ "9876543210"
        [("name", "A"), ("extra", "x")]).1 "9876543210").2 =
      .ok (applyProfileDefaults "9876543210" [("name", "A"), ("extra", "x")]) :=
  ⟨by decide,
   (c6_profile_round_trip ⟨fun _ => none, fun _ => []⟩ "9876543210"
     [("name", "A"), ("extra", "x")] (by decide) (by decide)).1⟩

end ProjectMain
